import Mathlib

/-!
Verification of the kokoro-agent connection/session engine.

The definitions below are a shallow embedding of the Go sources:
the `ws` frame codec (`Conn.writeFrame`, `Conn.readFrame`,
`Conn.ReadMessage`), the runtime configuration overlay
(`applyConfigFromMessage`, `getTCPPing`), the outer reconnect/backoff
loop of `Agent.Run`, and the one-time network-probe plumbing.
Byte streams are `List Nat` with every value read from the stream
reduced mod 256; machine integers are `Int`/`Nat` with explicit
reductions where the Go code truncates.
-/

set_option maxHeartbeats 1000000

namespace KokoroAgent

/-! ### Frame codec (package ws) -/

/-- Errors of the frame reader (`Conn.readFrame`): end of stream /
short read (io.EOF and friends), a declared length outside the
permitted range (Go: `frame too large: %d`), and a frame with FIN
unset (Go: `fragmented frames not supported`). -/
inductive WsError where
  | eof
  | tooLarge (n : Int)
  | fragmented
deriving DecidableEq, Repr

/-- `io.ReadFull`: read exactly `n` bytes, returning them and the rest
of the stream; `none` when fewer than `n` bytes remain.  Values are
reduced mod 256 on read since the wire carries bytes. -/
def readFull (n : Nat) (s : List Nat) : Option (List Nat × List Nat) :=
  if s.length < n then none
  else some ((s.take n).map (· % 256), s.drop n)

/-- Big-endian accumulation `v = v<<8 | b` used by `readFrame` for the
extended length fields; `|` coincides with `+` because the low 8 bits
of `v<<8` are zero and `b < 256`. -/
def decodeBE (bs : List Nat) : Nat :=
  bs.foldl (fun v b => v * 256 + b) 0

/-- The eight big-endian bytes `byte(uint64(n) >> 8*i)`, `i = 7..0`,
that `writeFrame` emits for the 64-bit extended length. -/
def be64 (n : Nat) : List Nat :=
  (List.range 8).map (fun j => n / 2 ^ (8 * (7 - j)) % 256)

/-- RFC6455 XOR masking, shared by `writeFrame` (mask) and `readFrame`
(unmask): byte `i` is XORed with mask-key byte `i % 4`.  One function
serves both directions because XOR is an involution on bytes. -/
def maskBytes (mk : List Nat) : Nat → List Nat → List Nat
  | _, [] => []
  | i, b :: r => ((b % 256) ^^^ (mk.getD (i % 4) 0 % 256)) :: maskBytes mk (i + 1) r

/-- The length byte(s) `writeFrame` emits: `0x80 | n` for `n ≤ 125`
(0x80 is the client mask bit), `0x80|126` plus a 16-bit big-endian
length for `n ≤ 65535`, and `0x80|127` plus a 64-bit big-endian
length otherwise. -/
def lenBytesOf (n : Nat) : List Nat :=
  if n ≤ 125 then [128 + n]
  else if n ≤ 65535 then [128 + 126, n / 256 % 256, n % 256]
  else (128 + 127) :: be64 n

/-- `Conn.writeFrame`: header byte `0x80 | (opcode & 0x0f)` (FIN always
set), the length byte(s) with the mask bit set, the 4-byte mask key,
then the payload XOR-masked with the key.  The random mask key of the
Go code is the `maskKey` argument. -/
def writeFrame (opcode : Nat) (maskKey : List Nat) (payload : List Nat) : List Nat :=
  (128 + opcode % 16) :: (lenBytesOf payload.length ++ (maskKey ++ maskBytes maskKey 0 payload))

/-- Tail of `Conn.readFrame` after the length has been decoded (`b1`,
`b2` are the two already-read header bytes, `length` the decoded
signed length, `r1` the rest of the stream): read the 4-byte mask key
when the mask bit of `b2` is set, enforce
`length < 0 || length > 32*1024*1024`, read the payload, unmask it if
masked, and finally reject the frame when FIN is unset. -/
def readFrameRest (b1 b2 : Nat) (length : Int) (r1 : List Nat) :
    Except WsError ((Nat × List Nat) × List Nat) :=
  match (if 128 ≤ b2 then readFull 4 r1 else some ([0, 0, 0, 0], r1)) with
  | none => .error .eof
  | some (mk, r2) =>
    if length < 0 ∨ (32 * 1024 * 1024 : Int) < length then .error (.tooLarge length)
    else
      match readFull length.toNat r2 with
      | none => .error .eof
      | some (praw, r3) =>
        if 128 ≤ b1 then
          .ok ((b1 % 16, if 128 ≤ b2 then maskBytes mk 0 praw else praw), r3)
        else .error .fragmented

/-- Length decoding of `Conn.readFrame`: the 7-bit field `b2 & 0x7f`
directly, or the 16-bit / 64-bit big-endian extension; the 64-bit
value goes through Go's `uint64 -> int64` conversion. -/
def readFrameLen (b1 b2 : Nat) (r0 : List Nat) :
    Except WsError ((Nat × List Nat) × List Nat) :=
  if b2 % 128 = 126 then
    match readFull 2 r0 with
    | none => .error .eof
    | some (ext, r1) => readFrameRest b1 b2 (decodeBE ext : Int) r1
  else if b2 % 128 = 127 then
    match readFull 8 r0 with
    | none => .error .eof
    | some (ext, r1) =>
      readFrameRest b1 b2
        (if decodeBE ext < 2 ^ 63 then (decodeBE ext : Int)
         else (decodeBE ext : Int) - 2 ^ 64) r1
  else readFrameRest b1 b2 (b2 % 128 : Nat) r0

/-- `Conn.readFrame`: parse one frame from the byte stream, returning
the opcode (`b1 & 0x0f`), the unmasked payload, and the remaining
stream.  The FIN bit is `b1 & 0x80`, the mask bit `b2 & 0x80`. -/
def readFrame (s : List Nat) : Except WsError ((Nat × List Nat) × List Nat) :=
  match s with
  | [] => .error .eof
  | [_] => .error .eof
  | c1 :: c2 :: r0 => readFrameLen (c1 % 256) (c2 % 256) r0

/-- Body bytes of `Conn.WriteClose(code, reason)`:
`[byte(code >> 8), byte(code)] ++ reason`. -/
def closeBody (code : Nat) (reason : List Nat) : List Nat :=
  (code / 256 % 256) :: (code % 256) :: reason

/-- The ASCII bytes of the string "bye" used in the close reply. -/
def byeBytes : List Nat := [98, 121, 101]

/-- Result of `Conn.ReadMessage`: a data frame handed to the caller
(`err = nil`), a close frame surfaced as the distinguished
end-of-stream return (`io.EOF`) together with the close payload, or a
read error. -/
inductive ReadResult where
  | msg (opcode : Nat) (payload : List Nat)
  | closed (opcode : Nat) (payload : List Nat)
  | failed (e : WsError)
deriving DecidableEq, Repr

/-- Fueled loop of `Conn.ReadMessage`.  Frames are read until a data
frame arrives: a ping (opcode 9) triggers one `WritePong` with the
identical payload and the loop continues; a pong (opcode 10) is
discarded; a close (opcode 8) triggers one `WriteClose(1000, "bye")`
and is surfaced as `closed`.  Performed writes are collected as
(opcode, body) pairs.  The fuel only bounds the recursion; each
successful `readFrame` consumes at least two bytes, so
`s.length + 1` fuel never runs out. -/
def readMessageF : Nat → List Nat → List (Nat × List Nat) × ReadResult
  | 0, _ => ([], .failed .eof)
  | fuel + 1, s =>
    match readFrame s with
    | .error e => ([], .failed e)
    | .ok ((op, payload), rest) =>
      if op = 9 then
        ((10, payload) :: (readMessageF fuel rest).1, (readMessageF fuel rest).2)
      else if op = 10 then readMessageF fuel rest
      else if op = 8 then ([(8, closeBody 1000 byeBytes)], .closed op payload)
      else ([], .msg op payload)

/-- `Conn.ReadMessage` on a byte stream. -/
def readMessage (s : List Nat) : List (Nat × List Nat) × ReadResult :=
  readMessageF (s.length + 1) s

/-- Clears the FIN bit of the first header byte of a wire frame,
producing the fragmented frames that `readFrame` must reject. -/
def clearFin : List Nat → List Nat
  | [] => []
  | b :: r => b % 128 :: r

/-! ### JSON values and the runtime configuration overlay (package agent) -/

/-- JSON values as produced by `json.Unmarshal` into `map[string]any`
(numbers at the integer granularity the configuration uses). -/
inductive Json where
  | null
  | bool (b : Bool)
  | num (n : Int)
  | str (s : String)
  | arr (xs : List Json)
  | obj (fields : List (String × Json))

/-- `tcpping.Target` (package tcpping). -/
structure Target where
  id : String
  province : String
  carrier : String
  ipVer : Int
  host : String
  port : Int
  label : String
  timeoutMS : Int
deriving DecidableEq, Repr

/-- The zero `Target` value. -/
def Target.zero : Target := ⟨"", "", "", 0, "", 0, "", 0⟩

/-- Decode a JSON integer field of a struct: a missing field or an
explicit `null` keeps the zero value, a number is taken as is, and any
other shape makes `json.Unmarshal` fail. -/
def decodeIntField (o : List (String × Json)) (k : String) : Option Int :=
  match o.lookup k with
  | none => some 0
  | some .null => some 0
  | some (.num n) => some n
  | some _ => none

/-- Decode a JSON boolean field of a struct (zero value `false`). -/
def decodeBoolField (o : List (String × Json)) (k : String) : Option Bool :=
  match o.lookup k with
  | none => some false
  | some .null => some false
  | some (.bool b) => some b
  | some _ => none

/-- Decode a JSON string field of a struct (zero value `""`). -/
def decodeStrField (o : List (String × Json)) (k : String) : Option String :=
  match o.lookup k with
  | none => some ""
  | some .null => some ""
  | some (.str s) => some s
  | some _ => none

/-- Decode one `tcpping.Target` from JSON, field for field. -/
def decodeTarget (j : Json) : Option Target :=
  match j with
  | .null => some Target.zero
  | .obj o => do
    let i ← decodeStrField o "id"
    let pv ← decodeStrField o "province"
    let ca ← decodeStrField o "carrier"
    let iv ← decodeIntField o "ip_ver"
    let h ← decodeStrField o "host"
    let pt ← decodeIntField o "port"
    let lb ← decodeStrField o "label"
    let tm ← decodeIntField o "timeout_ms"
    some ⟨i, pv, ca, iv, h, pt, lb, tm⟩
  | _ => none

/-- Decode the `targets` slice field: a missing field or `null` leaves
the Go slice `nil` (modelled `none`), an array yields a present list
(possibly empty), anything else fails. -/
def decodeTargetsField (o : List (String × Json)) (k : String) :
    Option (Option (List Target)) :=
  match o.lookup k with
  | none => some none
  | some .null => some none
  | some (.arr xs) => (xs.mapM decodeTarget).map some
  | some _ => none

/-- The anonymous `TCPPing` sub-struct of the pushed configuration in
`applyConfigFromMessage`. -/
structure PushedTCPPing where
  enabled : Bool
  intervalSec : Int
  targets : Option (List Target)
deriving DecidableEq, Repr

/-- The anonymous struct `applyConfigFromMessage` decodes the embedded
`config` object into. -/
structure PushedConfig where
  metricsIntervalMS : Int
  tcpping : PushedTCPPing
deriving DecidableEq, Repr

/-- Decode the `tcpping` member of the pushed configuration. -/
def decodeTCPPingField (o : List (String × Json)) : Option PushedTCPPing :=
  match o.lookup "tcpping" with
  | none => some ⟨false, 0, none⟩
  | some .null => some ⟨false, 0, none⟩
  | some (.obj t) => do
    let e ← decodeBoolField t "enabled"
    let i ← decodeIntField t "interval_sec"
    let ts ← decodeTargetsField t "targets"
    some ⟨e, i, ts⟩
  | some _ => none

/-- Decoding the embedded `config` value into the anonymous struct of
`applyConfigFromMessage`.  The Go code re-marshals the `any` value and
unmarshals the bytes; since the value came from JSON in the first
place the marshal step cannot fail and the composition is plain
JSON-value decoding. -/
def decodeConfig (j : Json) : Option PushedConfig :=
  match j with
  | .null => some ⟨0, ⟨false, 0, none⟩⟩
  | .obj o => do
    let mi ← decodeIntField o "metrics_interval_ms"
    let tp ← decodeTCPPingField o
    some ⟨mi, tp⟩
  | _ => none

/-- `runtimeConfig`: the mutable runtime overlay of the agent. -/
structure RuntimeConfig where
  metricsIntervalMS : Int
  tcpPingEnabled : Bool
  tcpPingIntervalSec : Int
  tcpPingTargets : List Target
  configVersion : Int
deriving DecidableEq, Repr

/-- `m["config_version"].(float64)` of `applyConfigFromMessage`: the
version number of the message when present as a JSON number, else 0. -/
def msgConfigVersion (m : List (String × Json)) : Int :=
  match m.lookup "config_version" with
  | some (.num v) => v
  | _ => 0

/-- `applyConfigFromMessage`: extract the embedded `config` object (a
missing key or a decode failure leaves the overlay untouched), then
overwrite the overlay: the metrics interval and the TCP-ping interval
only when strictly positive, the enabled flag always, the target list
only when present, and the version only when strictly positive. -/
def applyConfigFromMessage (rt : RuntimeConfig) (m : List (String × Json)) :
    RuntimeConfig :=
  match m.lookup "config" with
  | none => rt
  | some cfgJson =>
    match decodeConfig cfgJson with
    | none => rt
    | some c =>
      let ver := msgConfigVersion m
      let rt1 := if 0 < c.metricsIntervalMS then
        { rt with metricsIntervalMS := c.metricsIntervalMS } else rt
      let rt2 := { rt1 with tcpPingEnabled := c.tcpping.enabled }
      let rt3 := if 0 < c.tcpping.intervalSec then
        { rt2 with tcpPingIntervalSec := c.tcpping.intervalSec } else rt2
      let rt4 := match c.tcpping.targets with
        | some ts => { rt3 with tcpPingTargets := ts }
        | none => rt3
      if 0 < ver then { rt4 with configVersion := ver } else rt4

/-- Does the message carry an embedded `config` that decodes?  Exactly
when it does, `applyConfigFromMessage` reaches its field-overwriting
section. -/
def configApplies (m : List (String × Json)) : Bool :=
  match m.lookup "config" with
  | none => false
  | some j => (decodeConfig j).isSome

/-- The static `tcpping` bootstrap configuration (package config). -/
structure TCPPingStatic where
  enabled : Bool
  intervalSec : Int
deriving DecidableEq, Repr

/-- `Agent.getTCPPing`: the effective TCP-ping settings the probe loop
reads before each cycle — the overlay enabled flag ORed with the
static flag, the overlay interval with fallback to the static one when
not strictly positive, and the overlay target list. -/
def getTCPPing (cfg : TCPPingStatic) (rt : RuntimeConfig) :
    Bool × Int × List Target :=
  (rt.tcpPingEnabled || cfg.enabled,
   if rt.tcpPingIntervalSec ≤ 0 then cfg.intervalSec else rt.tcpPingIntervalSec,
   rt.tcpPingTargets)

/-! ### Outer retry loop of `Agent.Run` -/

/-- The backoff update of `Agent.Run` after a failed attempt, in
seconds: `if backoff < 30 { backoff *= 2; if backoff > 30 { backoff = 30 } }`. -/
def backoffStep (b : Nat) : Nat :=
  if b < 30 then (if 30 < 2 * b then 30 else 2 * b) else b

/-- Outcome of one `Agent.runOnce` call.  `failed` is whether it
returned a non-nil error (it returns nil only when a stop was
requested).  `reachedActive` records whether the session received the
acknowledgment and entered the Active state before ending; `Agent.Run`
cannot observe this flag — it is carried here only so claims about it
can be stated. -/
structure SessionResult where
  reachedActive : Bool
  failed : Bool
deriving DecidableEq, Repr

/-- The sleep durations (seconds) of `Agent.Run`'s outer loop: starting
from backoff `b`, each failed attempt sleeps the current backoff and
then doubles it (saturating at 30); an attempt that returned nil
resets the backoff to one second and sleeps not at all. -/
def runSleeps : Nat → List SessionResult → List Nat
  | _, [] => []
  | b, s :: rest =>
    if s.failed then b :: runSleeps (backoffStep b) rest
    else runSleeps 1 rest

/-! ### One-time network probe (packages netprobe / agent) -/

/-- `netprobe.Result`. -/
structure ProbeResult where
  done : Bool
  ipv4OK : Bool
  publicIPv4 : String
  ipv6OK : Bool
  publicIPv6 : String
  probeTS : Int
deriving DecidableEq, Repr

/-- The agent fields `netProbe`/`netProbeDone`, written exactly once by
`Agent.Run` before its retry loop and never assigned anywhere else in
the package. -/
structure AgentProbeState where
  netProbe : ProbeResult
  netProbeDone : Bool
deriving DecidableEq, Repr

/-- The `net_probe` field `Agent.runOnce` attaches to the hello
message: present exactly when `netProbeDone` is set. -/
def helloNetProbe (st : AgentProbeState) : Option ProbeResult :=
  if st.netProbeDone then some st.netProbe else none

/-- One `Agent.runOnce` attempt, restricted to the probe state: it
emits the hello's `net_probe` field and leaves the probe state
untouched (`runOnce` contains no assignment to either field). -/
def runOnceProbe (st : AgentProbeState) : Option ProbeResult × AgentProbeState :=
  (helloNetProbe st, st)

/-- The per-attempt trace of hello `net_probe` fields over `k`
successive connection attempts, threading the probe state. -/
def runTrace (st : AgentProbeState) : Nat → List (Option ProbeResult)
  | 0 => []
  | k + 1 => (runOnceProbe st).1 :: runTrace (runOnceProbe st).2 k

/-- `Agent.Run` restricted to the probe state: the probe result `p` is
captured once before the retry loop (`netProbeDone := true`), then `k`
attempts each build a hello. -/
def agentRun (p : ProbeResult) (k : Nat) : List (Option ProbeResult) :=
  runTrace ⟨p, true⟩ k

/-! ### Byte-level helper lemmas -/

theorem map_mod_eq_self {l : List Nat} (h : ∀ b ∈ l, b < 256) :
    l.map (· % 256) = l := by
  conv_rhs => rw [← List.map_id l]
  exact List.map_congr_left fun a ha => Nat.mod_eq_of_lt (h a ha)

theorem readFull_append {n : Nat} {l : List Nat} (r : List Nat) (hl : l.length = n)
    (hb : ∀ b ∈ l, b < 256) : readFull n (l ++ r) = some (l, r) := by
  have hlen : ¬ ((l ++ r).length < n) := by
    rw [List.length_append]; omega
  unfold readFull
  rw [if_neg hlen, List.take_left' hl, List.drop_left' hl, map_mod_eq_self hb]

theorem maskBytes_length (mk : List Nat) (i : Nat) (p : List Nat) :
    (maskBytes mk i p).length = p.length := by
  induction p generalizing i with
  | nil => rfl
  | cons b r ih => simp [maskBytes, ih]

theorem maskBytes_lt (mk : List Nat) (i : Nat) (p : List Nat) :
    ∀ b ∈ maskBytes mk i p, b < 256 := by
  induction p generalizing i with
  | nil => intro b hb; simp [maskBytes] at hb
  | cons a r ih =>
    intro b hb
    simp only [maskBytes, List.mem_cons] at hb
    rcases hb with hb | hb
    · subst hb
      have h256 : (256 : Nat) = 2 ^ 8 := by norm_num
      have h1 : a % 256 < 2 ^ 8 := h256 ▸ Nat.mod_lt _ (by norm_num)
      have h2 : mk.getD (i % 4) 0 % 256 < 2 ^ 8 := h256 ▸ Nat.mod_lt _ (by norm_num)
      exact h256 ▸ Nat.xor_lt_two_pow h1 h2
    · exact ih (i + 1) b hb

theorem maskBytes_maskBytes {p : List Nat} (mk : List Nat) (i : Nat)
    (hp : ∀ b ∈ p, b < 256) : maskBytes mk i (maskBytes mk i p) = p := by
  induction p generalizing i with
  | nil => rfl
  | cons a r ih =>
    have ha : a < 256 := hp a (List.mem_cons_self a r)
    have h256 : (256 : Nat) = 2 ^ 8 := by norm_num
    have hx : (a % 256) ^^^ (mk.getD (i % 4) 0 % 256) < 256 := by
      rw [h256]
      exact Nat.xor_lt_two_pow (h256 ▸ Nat.mod_lt _ (by norm_num))
        (h256 ▸ Nat.mod_lt _ (by norm_num))
    simp only [maskBytes, List.cons.injEq]
    constructor
    · rw [Nat.mod_eq_of_lt hx, Nat.xor_cancel_right, Nat.mod_eq_of_lt ha]
    · exact ih (i + 1) fun b hb => hp b (List.mem_cons_of_mem a hb)

theorem be64_eq (n : Nat) : be64 n = [n / 2 ^ 56 % 256, n / 2 ^ 48 % 256,
    n / 2 ^ 40 % 256, n / 2 ^ 32 % 256, n / 2 ^ 24 % 256, n / 2 ^ 16 % 256,
    n / 2 ^ 8 % 256, n % 256] := by
  simp [be64, List.range_succ]

theorem decodeBE_be64 {n : Nat} (h : n < 2 ^ 64) : decodeBE (be64 n) = n := by
  rw [be64_eq]
  simp only [decodeBE, List.foldl]
  omega

theorem be64_length (n : Nat) : (be64 n).length = 8 := by simp [be64]

theorem be64_lt (n : Nat) : ∀ b ∈ be64 n, b < 256 := by
  intro b hb
  simp [be64] at hb
  obtain ⟨j, _, rfl⟩ := hb
  exact Nat.mod_lt _ (by norm_num)

/-! ### Parsing a frame produced by the writer -/

theorem readFrameRest_wf {b1 b2 : Nat} (hb2 : 128 ≤ b2) (mk p extra : List Nat)
    (hmk : mk.length = 4) (hmkB : ∀ b ∈ mk, b < 256)
    (hpB : ∀ b ∈ p, b < 256) (hn : p.length ≤ 32 * 1024 * 1024) :
    readFrameRest b1 b2 (p.length : Int) (mk ++ (maskBytes mk 0 p ++ extra)) =
      if 128 ≤ b1 then .ok ((b1 % 16, p), extra) else .error .fragmented := by
  have hcond : ¬ ((p.length : Int) < 0 ∨ (32 * 1024 * 1024 : Int) < (p.length : Int)) := by
    push_cast
    omega
  have hmask : readFull (Int.toNat (p.length : Int)) (maskBytes mk 0 p ++ extra)
      = some (maskBytes mk 0 p, extra) := by
    rw [Int.toNat_ofNat]
    exact readFull_append extra (maskBytes_length mk 0 p) (maskBytes_lt mk 0 p)
  simp only [readFrameRest, if_pos hb2,
    readFull_append (maskBytes mk 0 p ++ extra) hmk hmkB, if_neg hcond, hmask,
    maskBytes_maskBytes mk 0 hpB]

theorem readFrame_wire (b1 : Nat) (mk p extra : List Nat)
    (hmk : mk.length = 4) (hmkB : ∀ b ∈ mk, b < 256) (hpB : ∀ b ∈ p, b < 256)
    (hn : p.length ≤ 32 * 1024 * 1024) :
    readFrame (b1 :: (lenBytesOf p.length ++ (mk ++ (maskBytes mk 0 p ++ extra)))) =
      if 128 ≤ b1 % 256 then .ok ((b1 % 256 % 16, p), extra)
      else .error .fragmented := by
  by_cases h1 : p.length ≤ 125
  · have hlb : lenBytesOf p.length = [128 + p.length] := by
      rw [lenBytesOf, if_pos h1]
    rw [hlb, List.singleton_append]
    simp only [readFrame]
    have hb2 : (128 + p.length) % 256 = 128 + p.length := Nat.mod_eq_of_lt (by omega)
    rw [hb2]
    simp only [readFrameLen]
    have e1 : (128 + p.length) % 128 = p.length := by omega
    rw [e1, if_neg (by omega), if_neg (by omega)]
    exact readFrameRest_wf (by omega) mk p extra hmk hmkB hpB hn
  · by_cases h2 : p.length ≤ 65535
    · have hlb : lenBytesOf p.length
          = [128 + 126, p.length / 256 % 256, p.length % 256] := by
        rw [lenBytesOf, if_neg h1, if_pos h2]
      rw [hlb]
      simp only [List.cons_append, List.nil_append]
      simp only [readFrame]
      have hb2 : (128 + 126 : Nat) % 256 = 128 + 126 := by norm_num
      rw [hb2]
      simp only [readFrameLen]
      rw [if_pos (by norm_num)]
      have hsplit : p.length / 256 % 256 :: p.length % 256 ::
            (mk ++ (maskBytes mk 0 p ++ extra))
          = [p.length / 256 % 256, p.length % 256]
            ++ (mk ++ (maskBytes mk 0 p ++ extra)) := rfl
      rw [hsplit]
      rw [readFull_append _ (by simp)
        (by intro b hb; simp at hb; rcases hb with h | h <;> omega)]
      have hdec : decodeBE [p.length / 256 % 256, p.length % 256] = p.length := by
        simp only [decodeBE, List.foldl]
        omega
      simp only [hdec]
      exact readFrameRest_wf (by norm_num) mk p extra hmk hmkB hpB hn
    · have hlb : lenBytesOf p.length = (128 + 127) :: be64 p.length := by
        rw [lenBytesOf, if_neg h1, if_neg h2]
      rw [hlb]
      simp only [List.cons_append]
      simp only [readFrame]
      have hb2 : (128 + 127 : Nat) % 256 = 128 + 127 := by norm_num
      rw [hb2]
      simp only [readFrameLen]
      rw [if_neg (by norm_num), if_pos (by norm_num)]
      rw [readFull_append _ (be64_length p.length) (be64_lt p.length)]
      have h64 : p.length < 2 ^ 64 := lt_of_le_of_lt hn (by norm_num)
      simp only [decodeBE_be64 h64]
      rw [if_pos (show p.length < 2 ^ 63 from lt_of_le_of_lt hn (by norm_num))]
      exact readFrameRest_wf (by norm_num) mk p extra hmk hmkB hpB hn

theorem writeFrame_readFrame (op : Nat) (mk p extra : List Nat)
    (hmk : mk.length = 4) (hmkB : ∀ b ∈ mk, b < 256) (hpB : ∀ b ∈ p, b < 256)
    (hn : p.length ≤ 32 * 1024 * 1024) :
    readFrame (writeFrame op mk p ++ extra) = .ok ((op % 16, p), extra) := by
  have h := readFrame_wire (128 + op % 16) mk p extra hmk hmkB hpB hn
  have h1 : (128 + op % 16) % 256 = 128 + op % 16 := Nat.mod_eq_of_lt (by omega)
  rw [h1, if_pos (by omega)] at h
  have h3 : (128 + op % 16) % 16 = op % 16 := by omega
  rw [h3] at h
  simp only [writeFrame, List.cons_append, List.append_assoc]
  exact h

/-! ### Each successful frame read consumes part of the stream -/

theorem readFull_rest_le {n : Nat} {s l r : List Nat}
    (h : readFull n s = some (l, r)) : r.length ≤ s.length := by
  unfold readFull at h
  split at h
  · exact absurd h (by simp)
  · simp only [Option.some.injEq, Prod.mk.injEq] at h
    rw [← h.2, List.length_drop]
    omega

theorem readFrameRest_rest_le {b1 b2 : Nat} {L : Int} {r1 : List Nat}
    {x : Nat × List Nat} {r3 : List Nat}
    (h : readFrameRest b1 b2 L r1 = .ok (x, r3)) : r3.length ≤ r1.length := by
  unfold readFrameRest at h
  split at h
  · exact absurd h (by simp)
  · rename_i mk r2 heq
    have h2 : r2.length ≤ r1.length := by
      split at heq
      · exact readFull_rest_le heq
      · simp only [Option.some.injEq, Prod.mk.injEq] at heq
        rw [← heq.2]
    split at h
    · exact absurd h (by simp)
    · split at h
      · exact absurd h (by simp)
      · rename_i praw r3' heq2
        have h3 : r3'.length ≤ r2.length := readFull_rest_le heq2
        split at h
        · simp only [Except.ok.injEq, Prod.mk.injEq] at h
          rw [← h.2]
          omega
        · exact absurd h (by simp)

theorem readFrameLen_rest_le {b1 b2 : Nat} {r0 : List Nat}
    {x : Nat × List Nat} {rest : List Nat}
    (h : readFrameLen b1 b2 r0 = .ok (x, rest)) : rest.length ≤ r0.length := by
  unfold readFrameLen at h
  split at h
  · split at h
    · exact absurd h (by simp)
    · rename_i ext r1 heq
      exact le_trans (readFrameRest_rest_le h) (readFull_rest_le heq)
  · split at h
    · split at h
      · exact absurd h (by simp)
      · rename_i ext r1 heq
        exact le_trans (readFrameRest_rest_le h) (readFull_rest_le heq)
    · exact readFrameRest_rest_le h

theorem readFrame_rest_lt {s : List Nat} {x : Nat × List Nat} {rest : List Nat}
    (h : readFrame s = .ok (x, rest)) : rest.length < s.length := by
  match s with
  | [] => exact absurd h (by simp [readFrame])
  | [_] => exact absurd h (by simp [readFrame])
  | c1 :: c2 :: r0 =>
    have := readFrameLen_rest_le (h := h)
    simp only [List.length_cons]
    omega

/-! ### The `ReadMessage` loop -/

theorem readMessageF_congr : ∀ (a : Nat) (b : Nat) (s : List Nat),
    s.length < a → s.length < b →
    readMessageF a s = readMessageF b s := by
  intro a
  induction a with
  | zero => intro b s h h'; omega
  | succ f ih =>
    intro b s h h'
    cases b with
    | zero => omega
    | succ f' =>
      simp only [readMessageF]
      cases hr : readFrame s with
      | error e => rfl
      | ok v =>
        obtain ⟨⟨op, payload⟩, rest⟩ := v
        have hlt := readFrame_rest_lt hr
        have hrec : readMessageF f rest = readMessageF f' rest :=
          ih f' rest (by omega) (by omega)
        simp only [hrec]

theorem readMessage_step {t : List Nat} {op : Nat} {payload rest : List Nat}
    (hr : readFrame t = .ok ((op, payload), rest)) :
    readMessage t =
      if op = 9 then ((10, payload) :: (readMessage rest).1, (readMessage rest).2)
      else if op = 10 then readMessage rest
      else if op = 8 then ([(8, closeBody 1000 byeBytes)], .closed op payload)
      else ([], .msg op payload) := by
  have hlt := readFrame_rest_lt hr
  have hstep : readMessage t =
      if op = 9 then
        ((10, payload) :: (readMessageF t.length rest).1, (readMessageF t.length rest).2)
      else if op = 10 then readMessageF t.length rest
      else if op = 8 then ([(8, closeBody 1000 byeBytes)], .closed op payload)
      else ([], .msg op payload) := by
    unfold readMessage
    simp only [readMessageF, hr]
  rw [hstep, readMessageF_congr t.length (rest.length + 1) rest (by omega) (by omega)]
  rfl

/-! ### The configuration-apply operation, field by field -/

theorem applyConfig_ok_fields (rt : RuntimeConfig) (m : List (String × Json))
    (j : Json) (c : PushedConfig)
    (hj : m.lookup "config" = some j) (hc : decodeConfig j = some c) :
    applyConfigFromMessage rt m =
      { metricsIntervalMS :=
          if 0 < c.metricsIntervalMS then c.metricsIntervalMS
          else rt.metricsIntervalMS
        tcpPingEnabled := c.tcpping.enabled
        tcpPingIntervalSec :=
          if 0 < c.tcpping.intervalSec then c.tcpping.intervalSec
          else rt.tcpPingIntervalSec
        tcpPingTargets := c.tcpping.targets.getD rt.tcpPingTargets
        configVersion :=
          if 0 < msgConfigVersion m then msgConfigVersion m
          else rt.configVersion } := by
  obtain ⟨mi, en, iv, tg⟩ := c
  cases tg <;> by_cases h1 : 0 < mi <;> by_cases h2 : 0 < iv <;>
      by_cases h3 : 0 < msgConfigVersion m <;>
    simp [applyConfigFromMessage, hj, hc, h1, h2, h3]

/-! ### Backoff lemmas -/

theorem backoffStep_min (j : Nat) :
    backoffStep (min (2 ^ j) 30) = min (2 ^ (j + 1)) 30 := by
  by_cases hj : j ≤ 4
  · interval_cases j <;> decide
  · have h32 : 32 ≤ 2 ^ j := by
      calc (32 : Nat) = 2 ^ 5 := by norm_num
        _ ≤ 2 ^ j := Nat.pow_le_pow_right (by norm_num) (by omega)
    have h32' : 32 ≤ 2 ^ (j + 1) :=
      le_trans h32 (Nat.pow_le_pow_right (by norm_num) (by omega))
    have e1 : min (2 ^ j) 30 = 30 := by omega
    have e2 : min (2 ^ (j + 1)) 30 = 30 := by omega
    rw [e1, e2]
    decide

theorem runSleeps_replicate (k : Nat) : ∀ j : Nat,
    runSleeps (min (2 ^ j) 30) (List.replicate k ⟨false, true⟩) =
      (List.range k).map (fun i => min (2 ^ (j + i)) 30) := by
  induction k with
  | zero => intro j; rfl
  | succ k ih =>
    intro j
    rw [List.replicate_succ]
    have hhead : runSleeps (min (2 ^ j) 30)
        ((⟨false, true⟩ : SessionResult) :: List.replicate k ⟨false, true⟩)
        = min (2 ^ j) 30 ::
          runSleeps (backoffStep (min (2 ^ j) 30)) (List.replicate k ⟨false, true⟩) := by
      simp [runSleeps]
    rw [hhead, backoffStep_min j, ih (j + 1), List.range_succ_eq_map]
    simp only [List.map_cons, List.map_map]
    refine congrArg₂ List.cons (by norm_num) ?_
    exact List.map_congr_left fun i _ => by
      simp only [Function.comp_apply, Nat.succ_eq_add_one]
      rw [show j + 1 + i = j + (i + 1) from by omega]

theorem runSleeps_failed_only (b : Nat) (tr : List SessionResult) :
    runSleeps b tr = runSleeps b (tr.map fun s => ⟨false, s.failed⟩) := by
  induction tr generalizing b with
  | nil => rfl
  | cons s rest ih =>
    simp only [List.map_cons, runSleeps]
    cases hf : s.failed <;> simp [hf, ih]

/-! ### The probe state is never modified by an attempt -/

theorem runTrace_mem (st : AgentProbeState) (k : Nat) :
    ∀ o ∈ runTrace st k, o = helloNetProbe st := by
  induction k with
  | zero => intro o ho; simp [runTrace] at ho
  | succ k ih =>
    intro o ho
    simp only [runTrace, runOnceProbe, List.mem_cons] at ho
    rcases ho with ho | ho
    · exact ho
    · exact ih o ho

/-! ### Wire format of written frames -/

theorem writeFrame_length (op : Nat) (mk p : List Nat) (hmk : mk.length = 4) :
    (writeFrame op mk p).length =
      p.length + (if p.length ≤ 125 then 6
                  else if p.length ≤ 65535 then 8 else 14) := by
  by_cases h1 : p.length ≤ 125 <;> by_cases h2 : p.length ≤ 65535 <;>
    simp [writeFrame, lenBytesOf, maskBytes_length, hmk, h1, h2, be64_length] <;>
    omega

theorem writeFrame_lenByte (op : Nat) (mk p : List Nat) :
    (writeFrame op mk p)[1]? =
      some (if p.length ≤ 125 then 128 + p.length
            else if p.length ≤ 65535 then 254 else 255) := by
  by_cases h1 : p.length ≤ 125 <;> by_cases h2 : p.length ≤ 65535 <;>
    simp [writeFrame, lenBytesOf, h1, h2]

/-! ## The claims -/

/-- C1 (counterexample): the overlay's configuration version can
decrease.  A push carrying `config_version = 5` applied to an overlay
at version 10 moves the version back to 5, so the version after the
apply is not ≥ the version before. -/
theorem claim_c1_counterexample :
    ¬ ((⟨1000, false, 0, [], 10⟩ : RuntimeConfig).configVersion ≤
        (applyConfigFromMessage ⟨1000, false, 0, [], 10⟩
          [("type", .str "config_push"), ("config", .obj []),
           ("config_version", .num 5)]).configVersion) := by
  decide

/-- C1 (amended): the overlay's version after an apply equals the
pushed version whenever the message carries a decodable embedded
config and a strictly positive `config_version` — even when that
version is lower than the current one — and is unchanged otherwise
(zero/absent version, missing config, or decode failure). -/
theorem claim_c1_amended (rt : RuntimeConfig) (m : List (String × Json)) :
    (applyConfigFromMessage rt m).configVersion =
      if configApplies m ∧ 0 < msgConfigVersion m then msgConfigVersion m
      else rt.configVersion := by
  cases hj : m.lookup "config" with
  | none => simp [applyConfigFromMessage, configApplies, hj]
  | some j =>
    cases hc : decodeConfig j with
    | none => simp [applyConfigFromMessage, configApplies, hj, hc]
    | some c =>
      rw [applyConfig_ok_fields rt m j c hj hc]
      have happ : configApplies m = true := by simp [configApplies, hj, hc]
      simp [happ]

/-- C2 (counterexample): with a static bootstrap configuration whose
TCP-ping flag is `true`, applying a push carrying
`tcpping.enabled = false` does not make the effective enabled value
read by the probe loop `false` — `getTCPPing` still reports `true`. -/
theorem claim_c2_counterexample :
    (getTCPPing ⟨true, 60⟩
        (applyConfigFromMessage ⟨0, false, 0, [], 0⟩
          [("config", .obj [("tcpping", .obj [("enabled", .bool false)])])])).1
      ≠ false := by
  decide

/-- C2 (amended): after a push whose decoded config has
`tcpping.enabled = false` is applied, the effective enabled value that
the probe loop reads equals the static bootstrap flag (overlay `false`
falls through to the static value), so the push disables ping exactly
when the static flag is also `false`. -/
theorem claim_c2_amended (cfg : TCPPingStatic) (rt : RuntimeConfig)
    (m : List (String × Json)) (j : Json) (c : PushedConfig)
    (hj : m.lookup "config" = some j) (hc : decodeConfig j = some c)
    (he : c.tcpping.enabled = false) :
    (getTCPPing cfg (applyConfigFromMessage rt m)).1 = cfg.enabled := by
  rw [applyConfig_ok_fields rt m j c hj hc]
  simp [getTCPPing, he]

/-- Witness for C2 (amended) at a concrete input: static flag `false`,
push with `tcpping.enabled = false` — the effective value is `false`. -/
theorem claim_c2_amended_witness :
    (getTCPPing ⟨false, 60⟩
        (applyConfigFromMessage ⟨0, true, 7, [], 0⟩
          [("config", .obj [("tcpping", .obj [("enabled", .bool false)])])])).1
      = false :=
  claim_c2_amended ⟨false, 60⟩ ⟨0, true, 7, [], 0⟩
    [("config", .obj [("tcpping", .obj [("enabled", .bool false)])])]
    (.obj [("tcpping", .obj [("enabled", .bool false)])])
    ⟨0, ⟨false, 0, none⟩⟩ rfl rfl rfl

/-- C3 (counterexample): a failed first attempt (backoff grows to 2s)
followed by an attempt that reached Active and later failed: the sleep
before the next redial is 2s, not the claimed reset to 1s. -/
theorem claim_c3_counterexample :
    runSleeps 1 [⟨false, true⟩, ⟨true, true⟩] = [1, 2] ∧ (2 : Nat) ≠ 1 := by
  decide

/-- C3 (amended): starting from process start, consecutive failed
attempts sleep 1, 2, 4, 8, 16, 30, 30, ... seconds (`min (2^i) 30`);
and the sleep sequence is insensitive to whether an attempt reached
the Active state before failing — the backoff is reset to 1s only when
`runOnce` returns without error (a requested stop), which the loop
cannot distinguish from reaching Active. -/
theorem claim_c3_amended :
    (∀ k : Nat, runSleeps 1 (List.replicate k ⟨false, true⟩) =
        (List.range k).map (fun i => min (2 ^ i) 30)) ∧
    (∀ (b : Nat) (tr : List SessionResult),
        runSleeps b tr = runSleeps b (tr.map fun s => ⟨false, s.failed⟩)) := by
  constructor
  · intro k
    have h := runSleeps_replicate k 0
    simpa using h
  · exact runSleeps_failed_only

/-- C4: for every overlay state and decodable incoming configuration,
the apply overwrites the metrics interval only when strictly positive,
always overwrites the TCP-ping enabled flag, overwrites the TCP-ping
interval only when strictly positive, and overwrites the target list
exactly when a list is explicitly present (absent preserves, a present
list — empty or not — replaces wholesale). -/
theorem claim_c4 (rt : RuntimeConfig) (m : List (String × Json)) (j : Json)
    (c : PushedConfig) (hj : m.lookup "config" = some j)
    (hc : decodeConfig j = some c) :
    (applyConfigFromMessage rt m).metricsIntervalMS =
      (if 0 < c.metricsIntervalMS then c.metricsIntervalMS
       else rt.metricsIntervalMS) ∧
    (applyConfigFromMessage rt m).tcpPingEnabled = c.tcpping.enabled ∧
    (applyConfigFromMessage rt m).tcpPingIntervalSec =
      (if 0 < c.tcpping.intervalSec then c.tcpping.intervalSec
       else rt.tcpPingIntervalSec) ∧
    (c.tcpping.targets = none →
      (applyConfigFromMessage rt m).tcpPingTargets = rt.tcpPingTargets) ∧
    (∀ ts, c.tcpping.targets = some ts →
      (applyConfigFromMessage rt m).tcpPingTargets = ts) := by
  rw [applyConfig_ok_fields rt m j c hj hc]
  refine ⟨rfl, rfl, rfl, ?_, ?_⟩
  · intro h; simp [h]
  · intro ts h; simp [h]

/-- Witness for C4 at a concrete input: a push carrying only an empty
target list replaces the previous non-empty list wholesale. -/
theorem claim_c4_witness :
    (applyConfigFromMessage ⟨500, true, 9, [Target.zero], 1⟩
        [("config", .obj [("tcpping", .obj [("targets", .arr [])])])]).tcpPingTargets
      = [] :=
  (claim_c4 ⟨500, true, 9, [Target.zero], 1⟩
      [("config", .obj [("tcpping", .obj [("targets", .arr [])])])]
      (.obj [("tcpping", .obj [("targets", .arr [])])])
      ⟨0, ⟨false, 0, some []⟩⟩ rfl rfl).2.2.2.2 [] rfl

/-- C5: looping the writer into the reader returns the original opcode
and payload for every payload size in
{0, 1, 125, 126, 65535, 65536, 32·2^20}, and the wire bytes use the
form mandated by the bracket: second byte `0x80|n` and 6 bytes of
overhead for `n ≤ 125`, second byte `0x80|126` and 8 bytes of overhead
for `n ≤ 65535`, second byte `0x80|127` and 14 bytes of overhead
beyond. -/
theorem claim_c5 (op : Nat) (mk p extra : List Nat)
    (hop : op < 16) (hmk : mk.length = 4) (hmkB : ∀ b ∈ mk, b < 256)
    (hpB : ∀ b ∈ p, b < 256)
    (hsize : p.length ∈ [0, 1, 125, 126, 65535, 65536, 32 * 2 ^ 20]) :
    readFrame (writeFrame op mk p ++ extra) = .ok ((op, p), extra) ∧
    (writeFrame op mk p)[1]? =
      some (if p.length ≤ 125 then 128 + p.length
            else if p.length ≤ 65535 then 254 else 255) ∧
    (writeFrame op mk p).length =
      p.length + (if p.length ≤ 125 then 6
                  else if p.length ≤ 65535 then 8 else 14) := by
  have hn : p.length ≤ 32 * 1024 * 1024 := by
    simp only [List.mem_cons, List.not_mem_nil, or_false] at hsize
    rcases hsize with h | h | h | h | h | h | h <;> rw [h] <;> norm_num
  refine ⟨?_, writeFrame_lenByte op mk p, writeFrame_length op mk p hmk⟩
  have h := writeFrame_readFrame op mk p extra hmk hmkB hpB hn
  rwa [Nat.mod_eq_of_lt hop] at h

/-- Witness for C5 at a concrete input (payload size 1). -/
theorem claim_c5_witness :
    (1 : Nat) < 16 ∧
    ([42] : List Nat).length ∈ [0, 1, 125, 126, 65535, 65536, 32 * 2 ^ 20] ∧
    readFrame (writeFrame 1 [1, 2, 3, 4] [42] ++ [9]) = .ok ((1, [42]), [9]) :=
  ⟨by norm_num, by decide,
    (claim_c5 1 [1, 2, 3, 4] [42] [9] (by norm_num) rfl (by decide) (by decide)
      (by decide)).1⟩

/-- C6: a ping frame read by `ReadMessage` triggers exactly one pong
write with the identical payload and is not surfaced (the result is
that of reading the rest of the stream); a pong frame is consumed with
no write and nothing surfaced; a close frame triggers exactly one
close-reply write (`WriteClose(1000, "bye")`) and is surfaced as the
end-of-stream result carrying the close frame's original payload. -/
theorem claim_c6 (op : Nat) (mk p s : List Nat)
    (hop : op = 9 ∨ op = 10 ∨ op = 8)
    (hmk : mk.length = 4) (hmkB : ∀ b ∈ mk, b < 256) (hpB : ∀ b ∈ p, b < 256)
    (hn : p.length ≤ 32 * 1024 * 1024) :
    readMessage (writeFrame op mk p ++ s) =
      (if op = 9 then ((10, p) :: (readMessage s).1, (readMessage s).2)
       else if op = 10 then readMessage s
       else ([(8, closeBody 1000 byeBytes)], .closed 8 p)) := by
  have hrt := writeFrame_readFrame op mk p s hmk hmkB hpB hn
  have hop16 : op % 16 = op := Nat.mod_eq_of_lt (by rcases hop with h | h | h <;> omega)
  rw [hop16] at hrt
  rw [readMessage_step hrt]
  rcases hop with h | h | h <;> subst h <;> simp

/-- Witness for C6 at a concrete input: a ping frame followed by the
empty stream yields one pong write with the same payload. -/
theorem claim_c6_witness :
    ((9 : Nat) = 9 ∨ (9 : Nat) = 10 ∨ (9 : Nat) = 8) ∧
    readMessage (writeFrame 9 [1, 2, 3, 4] [7, 8] ++ []) =
      ((10, [7, 8]) :: (readMessage []).1, (readMessage []).2) :=
  ⟨Or.inl rfl, by
    have h := claim_c6 9 [1, 2, 3, 4] [7, 8] [] (Or.inl rfl) rfl (by decide)
      (by decide) (by decide)
    simpa using h⟩

/-- C7: a frame header declaring a 64-bit payload length strictly
greater than 32 MiB is rejected with the size-violation error
regardless of what (if anything) follows the header — in particular
the declared payload bytes need not be present and are not read. -/
theorem claim_c7 (b1 L : Nat) (rest : List Nat)
    (hL : 32 * 1024 * 1024 < L) (hL2 : L < 2 ^ 63) :
    readFrame (b1 :: 127 :: (be64 L ++ rest)) = .error (.tooLarge L) := by
  simp only [readFrame]
  rw [show (127 : Nat) % 256 = 127 from by norm_num]
  simp only [readFrameLen]
  rw [if_neg (by norm_num), if_pos (by norm_num)]
  rw [readFull_append rest (be64_length L) (be64_lt L)]
  have h64 : L < 2 ^ 64 := lt_trans hL2 (by norm_num)
  simp only [decodeBE_be64 h64]
  rw [if_pos hL2]
  simp only [readFrameRest, if_neg (show ¬ (128 ≤ 127) from by norm_num)]
  rw [if_pos (Or.inr (by exact_mod_cast hL))]

/-- Witness for C7 at a concrete input: declared length 32 MiB + 1
with nothing after the header. -/
theorem claim_c7_witness :
    32 * 1024 * 1024 < 33554433 ∧
    readFrame (129 :: 127 :: (be64 33554433 ++ [])) = .error (.tooLarge 33554433) :=
  ⟨by norm_num, claim_c7 129 33554433 [] (by norm_num) (by norm_num)⟩

/-- C8: any complete frame whose FIN bit is unset is rejected with the
fragmentation error: no opcode/payload is returned to the caller and
the bytes after the frame are never interpreted as a delivered
payload. -/
theorem claim_c8 (op : Nat) (mk p extra : List Nat)
    (hmk : mk.length = 4) (hmkB : ∀ b ∈ mk, b < 256) (hpB : ∀ b ∈ p, b < 256)
    (hn : p.length ≤ 32 * 1024 * 1024) :
    readFrame (clearFin (writeFrame op mk p) ++ extra) = .error .fragmented := by
  have h := readFrame_wire (op % 16) mk p extra hmk hmkB hpB hn
  have h1 : op % 16 % 256 = op % 16 := Nat.mod_eq_of_lt (by omega)
  rw [h1, if_neg (by omega)] at h
  simp only [writeFrame, clearFin, List.cons_append, List.append_assoc]
  rw [show (128 + op % 16) % 128 = op % 16 from by omega]
  exact h

/-- Witness for C8 at a concrete input. -/
theorem claim_c8_witness :
    readFrame (clearFin (writeFrame 1 [0, 0, 0, 0] [5]) ++ []) = .error .fragmented :=
  claim_c8 1 [0, 0, 0, 0] [5] [] rfl (by decide) (by decide) (by decide)

/-- C9: the network probe result is captured once per process start
and attached unchanged to the hello message of every connection
attempt the process makes, including reconnects: every element of the
hello trace is the initial probe result. -/
theorem claim_c9 (p : ProbeResult) (k : Nat) (o : Option ProbeResult)
    (ho : o ∈ agentRun p k) : o = some p := by
  have h := runTrace_mem ⟨p, true⟩ k o ho
  simpa [helloNetProbe] using h

/-- Witness for C9 at a concrete input: three attempts all carry the
probe result captured at start. -/
theorem claim_c9_witness :
    (some ⟨true, false, "", false, "", 0⟩ ∈
      agentRun ⟨true, false, "", false, "", 0⟩ 3) ∧
    (some ⟨true, false, "", false, "", 0⟩ : Option ProbeResult)
      = some ⟨true, false, "", false, "", 0⟩ :=
  ⟨by decide, claim_c9 ⟨true, false, "", false, "", 0⟩ 3 _ (by decide)⟩

/-- C10: a message without an embedded `config`, or whose embedded
config does not decode into the expected shape, leaves every field of
the runtime overlay unchanged — the apply is all-or-nothing on decode
failure. -/
theorem claim_c10 (rt : RuntimeConfig) (m : List (String × Json))
    (h : m.lookup "config" = none ∨
      ∃ j, m.lookup "config" = some j ∧ decodeConfig j = none) :
    applyConfigFromMessage rt m = rt := by
  rcases h with h | ⟨j, hj, hd⟩
  · simp [applyConfigFromMessage, h]
  · simp [applyConfigFromMessage, hj, hd]

/-- Witness for C10 at a concrete input: a push whose `config` is a
string cannot decode; the overlay (including its version) is
untouched even though the message carries `config_version = 99`. -/
theorem claim_c10_witness :
    applyConfigFromMessage ⟨500, true, 9, [], 3⟩
        [("type", .str "config_push"), ("config", .str "garbled"),
         ("config_version", .num 99)]
      = ⟨500, true, 9, [], 3⟩ :=
  claim_c10 ⟨500, true, 9, [], 3⟩
    [("type", .str "config_push"), ("config", .str "garbled"),
     ("config_version", .num 99)]
    (Or.inr ⟨.str "garbled", rfl, rfl⟩)

end KokoroAgent
